import Mathlib

/-!
Verification of the suggestion-matching and ranking engine of the
AIGamingAssistant repository (src/backend/ai_pipeline.py together with the
static rule catalog in src/backend/suggestion_models.py).

The embedding mirrors the Python source:
* a state snapshot / condition value is a boolean, an integer, a string, or a
  one-level nested mapping from sub-field names to scalars (the data model of
  the engine; floats and deeper nesting never occur in the catalog or in the
  states the engine is specified over);
* Python `==` on these values coerces between `bool` and `int`
  (`True == 1`, `False == 0` hold in Python), never between strings and
  other types, and compares dicts key-wise; `pyScalarEq` / `pyValueEq`
  reproduce exactly that;
* dictionaries are association lists looked up by first occurrence
  (`lookupKey`); Python dict keys are unique, so this is faithful;
* `list.sort(key=...)` is guaranteed stable in Python; it is modelled by a
  stable insertion sort (`sortRules`);
* the two `try/except` blocks of the source are modelled with `Except`:
  `checkCondList` is the body of `_check_conditions`, whose handler
  (`handleRuleFault`) turns a fault into "rule does not match", and
  `getSuggestionsE` is the body of `get_suggestions`, whose handler
  (`handlePassFault`) turns a fault into the empty list.  Over the engine's
  value domain no primitive operation of either body can raise, so both
  bodies always return `Except.ok`.
-/

namespace AIGameAssist

/-- A scalar state/condition value: Python bool, int or str. -/
inductive Scalar where
| b : Bool → Scalar
| i : Int → Scalar
| s : String → Scalar
deriving DecidableEq

/-- A value stored under a top-level state key or expected by a condition:
either a scalar or a one-level nested mapping (e.g. `abilities`). -/
inductive Value where
| scalar : Scalar → Value
| nested : List (String × Scalar) → Value
deriving DecidableEq

/-- A state snapshot: Python dict from field name to value. -/
def State := List (String × Value)

/-- First-occurrence lookup in an association list; Python `d[k]` together
with the `k in d` test. -/
def lookupKey {α : Type} : List (String × α) → String → Option α
| [], _ => none
| (k, v) :: rest, key => if k = key then some v else lookupKey rest key

/-- Python `==` on scalars: `bool` coerces to `int` (`True == 1`,
`False == 0`), strings only equal strings. -/
def pyScalarEq : Scalar → Scalar → Bool
| .b x, .b y => x = y
| .b x, .i y => (if x then (1 : Int) else 0) = y
| .i x, .b y => x = (if y then (1 : Int) else 0)
| .i x, .i y => x = y
| .s x, .s y => x = y
| _, _ => false

/-- Python `==` on dicts of scalars: equal key sets, values equal under
`pyScalarEq`. -/
def pyNestedEq (a b : List (String × Scalar)) : Bool :=
  (a.all fun p => match lookupKey b p.1 with
    | some w => pyScalarEq p.2 w
    | none => false) &&
  (b.all fun p => match lookupKey a p.1 with
    | some w => pyScalarEq p.2 w
    | none => false)

/-- Python `==` on values: a dict never equals a scalar. -/
def pyValueEq : Value → Value → Bool
| .scalar a, .scalar c => pyScalarEq a c
| .nested a, .nested c => pyNestedEq a c
| _, _ => false

/-- A suggestion rule (one entry of the catalog lists in
src/backend/suggestion_models.py). -/
structure Rule where
  id : String
  text : String
  priority : Int
  conditions : List (String × Value)
deriving DecidableEq

/-- A Python exception value (only its presence matters to the engine). -/
inductive PyErr where
| exc : String → PyErr
deriving DecidableEq

/-- The loop body of `AISuggestionPipeline._check_conditions` (the code
inside its `try`): for each `(key, value)` condition pair, a key absent from
the state returns `False`; when both the expected value and the state value
are dicts every expected sub-key must be present with a `==`-equal value;
otherwise the state value must be `==`-equal to the expected value. -/
def checkSub : List (String × Scalar) → List (String × Scalar) → Bool
| [], _ => true
| (subkey, subval) :: rest, stv =>
  match lookupKey stv subkey with
  | none => false
  | some x => if pyScalarEq x subval then checkSub rest stv else false

/-- The condition loop of `_check_conditions`, in the exception monad of its
surrounding `try`. -/
def checkCondList : List (String × Value) → State → Except PyErr Bool
| [], _ => .ok true
| (key, value) :: rest, state =>
  match lookupKey state key with
  | none => .ok false
  | some sv =>
    match value, sv with
    | .nested exp, .nested stv =>
      if checkSub exp stv then checkCondList rest state else .ok false
    | _, _ => if pyValueEq sv value then checkCondList rest state else .ok false

/-- The `except` clause of `_check_conditions`: any fault while checking one
rule is logged and the rule is treated as not matching. -/
def handleRuleFault : Except PyErr Bool → Bool
| .ok b => b
| .error _ => false

/-- `AISuggestionPipeline._check_conditions`: the `try` body guarded by its
handler. -/
def checkConditions (conditions : List (String × Value)) (state : State) : Bool :=
  handleRuleFault (checkCondList conditions state)

/-- The rule catalog `SUGGESTIONS` of src/backend/suggestion_models.py,
verbatim. -/
def SUGGESTIONS : List (String × List Rule) :=
  [("valorant",
    [{ id := "combat_utility",
       text := "Use utility to gain advantage in combat",
       priority := 1,
       conditions := [("combat", .scalar (.b true)),
                      ("utility_available", .scalar (.b true)),
                      ("close_range", .scalar (.b true))] },
     { id := "exposed_warning",
       text := "You are exposed! Find cover quickly",
       priority := 2,
       conditions := [("exposed", .scalar (.b true))] },
     { id := "save_money",
       text := "Consider saving money for next round",
       priority := 3,
       conditions := [("team_money", .scalar (.s "low")),
                      ("round_time", .scalar (.s "late"))] },
     { id := "use_ultimate",
       text := "Use your ultimate ability to gain an advantage",
       priority := 1,
       conditions := [("ultimate_available", .scalar (.b true)),
                      ("combat", .scalar (.b true))] },
     { id := "rotate_site",
       text := "Rotate to another site to surprise the enemy",
       priority := 2,
       conditions := [("site_control", .scalar (.b false)),
                      ("enemy_presence", .scalar (.b true))] },
     { id := "plant_spike",
       text := "Plant the spike to secure the round",
       priority := 1,
       conditions := [("site_control", .scalar (.b true)),
                      ("spike_available", .scalar (.b true)),
                      ("safe_to_plant", .scalar (.b true))] },
     { id := "defend_spike",
       text := "Defend the spike to win the round",
       priority := 1,
       conditions := [("spike_planted", .scalar (.b true)),
                      ("enemy_presence", .scalar (.b true))] },
     { id := "request_smoke",
       text := "Request a smoke from a teammate to block vision",
       priority := 2,
       conditions := [("need_smoke", .scalar (.b true)),
                      ("teammate_with_smoke", .scalar (.b true))] },
     { id := "request_flash",
       text := "Request a flash from a teammate to blind the enemy",
       priority := 2,
       conditions := [("need_flash", .scalar (.b true)),
                      ("teammate_with_flash", .scalar (.b true))] },
     { id := "request_healing",
       text := "Request healing from a teammate to stay alive",
       priority := 1,
       conditions := [("low_health", .scalar (.b true)),
                      ("teammate_with_healing", .scalar (.b true))] },
     { id := "check_corners",
       text := "Check your corners before entering a new area",
       priority := 3,
       conditions := [("entering_new_area", .scalar (.b true))] },
     { id := "communicate_team",
       text := "Communicate with your team to coordinate attacks and defenses",
       priority := 2,
       conditions := [("need_coordination", .scalar (.b true))] },
     { id := "use_ability_q",
       text := "Use your Q ability for tactical advantage",
       priority := 1,
       conditions := [("abilities", .nested [("Q", .b true)]),
                      ("combat", .scalar (.b true))] },
     { id := "use_ability_e",
       text := "Use your E ability to reposition or gather info",
       priority := 2,
       conditions := [("abilities", .nested [("E", .b true)]),
                      ("combat", .scalar (.b true))] },
     { id := "switch_to_rifle",
       text := "Switch to a rifle for better firepower",
       priority := 2,
       conditions := [("equipped_gun", .scalar (.s "Classic")),
                      ("combat", .scalar (.b true))] },
     { id := "default_tip",
       text := "Play smart and communicate with your team!",
       priority := 99,
       conditions := [] }]),
   ("csgo",
    [{ id := "combat_utility",
       text := "Use utility to gain advantage in combat",
       priority := 1,
       conditions := [("combat", .scalar (.b true)),
                      ("utility_available", .scalar (.b true))] },
     { id := "save_money",
       text := "Consider saving money for next round",
       priority := 2,
       conditions := [("team_money", .scalar (.s "low")),
                      ("round_time", .scalar (.s "late"))] }]),
   ("dota2",
    [{ id := "team_fight",
       text := "Team fight opportunity! Group up with allies",
       priority := 1,
       conditions := [("team_alive", .scalar (.i 4)),
                      ("combat", .scalar (.b true))] },
     { id := "farm_gold",
       text := "Focus on farming to increase gold",
       priority := 2,
       conditions := [("gold", .scalar (.s "low")),
                      ("combat", .scalar (.b false))] }])]

/-- `self.suggestions.get(game, [])`: the catalog sequence of a domain,
empty for an unknown domain. -/
def rulesFor (game : String) : List Rule :=
  (lookupKey SUGGESTIONS game).getD []

/-- The filtering pass of `get_suggestions`: the rules of the domain whose
conditions the state satisfies, in catalog order. -/
def matchingRules (state : State) (game : String) : List Rule :=
  (rulesFor game).filter fun r => checkConditions r.conditions state

/-- One step of the stable insertion sort modelling
`active_suggestions.sort(key=lambda x: x['priority'])`: the new element is
placed before the first element of greater-or-equal priority, so elements
already in the list that compare equal stay behind it. -/
def insertRule (r : Rule) : List Rule → List Rule
| [] => [r]
| x :: xs => if r.priority ≤ x.priority then r :: x :: xs else x :: insertRule r xs

/-- Stable sort by ascending priority (Python's `list.sort` is guaranteed
stable). -/
def sortRules : List Rule → List Rule
| [] => []
| x :: xs => insertRule x (sortRules xs)

/-- The body of `AISuggestionPipeline.get_suggestions` (the code inside its
`try`): look the domain up in the catalog, keep the rules whose conditions
hold, sort stably by priority, take the first three.  `_check_conditions`
contains its own handler, so every operation of this body is total over the
engine's value domain and the body always returns normally. -/
def getSuggestionsE (state : State) (game : String := "valorant") :
    Except PyErr (List Rule) :=
  Except.ok ((sortRules (matchingRules state game)).take 3)

/-- The `except` clause of `get_suggestions`: a fault of the whole pass is
logged and degrades to the empty list. -/
def handlePassFault : Except PyErr (List Rule) → List Rule
| .ok l => l
| .error _ => []

/-- `AISuggestionPipeline.get_suggestions`: the `try` body guarded by its
handler; the `game` argument defaults to `"valorant"` as in the source. -/
def getSuggestions (state : State) (game : String := "valorant") : List Rule :=
  handlePassFault (getSuggestionsE state game)

/-- Whether one `(key, value)` condition pair holds of a state: the branch
structure of the loop body of `_check_conditions`. -/
def condHolds (state : State) (key : String) (value : Value) : Bool :=
  match lookupKey state key with
  | none => false
  | some sv =>
    match value, sv with
    | .nested exp, .nested stv => checkSub exp stv
    | _, _ => pyValueEq sv value

/-- Type-sensitive exact scalar equality, modelled from the spec's words:
"exact equality by value and type: boolean ≠ 1, string \x22True\x22 ≠ boolean
true".  Compared against the source's `pyScalarEq` in the claims about
coercion. -/
def specScalarEq (a c : Scalar) : Bool := a = c

/-- The relation `list.sort(key=lambda x: x['priority'])` sorts by. -/
def priLE (a c : Rule) : Prop := a.priority ≤ c.priority

/-- The catch-all `default_tip` rule of the valorant catalog (the only rule
with empty conditions). -/
def defaultTipRule : Rule :=
  { id := "default_tip",
    text := "Play smart and communicate with your team!",
    priority := 99,
    conditions := [] }

theorem checkConditions_nil (state : State) : checkConditions [] state = true := rfl

theorem checkConditions_cons (k : String) (v : Value)
    (rest : List (String × Value)) (state : State) :
    checkConditions ((k, v) :: rest) state =
      (condHolds state k v && checkConditions rest state) := by
  simp only [checkConditions, checkCondList, condHolds]
  cases h : lookupKey state k with
  | none => simp [handleRuleFault]
  | some sv =>
    cases v with
    | scalar a =>
      cases sv with
      | scalar c => by_cases hc : pyValueEq (.scalar c) (.scalar a) = true <;>
          simp [hc, handleRuleFault]
      | nested m => by_cases hc : pyValueEq (.nested m) (.scalar a) = true <;>
          simp [hc, handleRuleFault]
    | nested exp =>
      cases sv with
      | scalar c => by_cases hc : pyValueEq (.scalar c) (.nested exp) = true <;>
          simp [hc, handleRuleFault]
      | nested stv => by_cases hc : checkSub exp stv = true <;>
          simp [hc, handleRuleFault]

theorem checkConditions_eq_all (conds : List (String × Value)) (state : State) :
    checkConditions conds state = conds.all fun p => condHolds state p.1 p.2 := by
  induction conds with
  | nil => rfl
  | cons p rest ih =>
    obtain ⟨k, v⟩ := p
    rw [checkConditions_cons, ih, List.all_cons]

theorem checkSub_eq_true_iff (exp stv : List (String × Scalar)) :
    checkSub exp stv = true ↔
      ∀ p ∈ exp, ∃ x, lookupKey stv p.1 = some x ∧ pyScalarEq x p.2 = true := by
  induction exp with
  | nil => simp [checkSub]
  | cons q rest ih =>
    obtain ⟨sk, sv⟩ := q
    simp only [checkSub]
    cases h : lookupKey stv sk with
    | none =>
      simp only [List.mem_cons, Bool.false_eq_true, false_iff]
      intro hall
      obtain ⟨x, hx, _⟩ := hall (sk, sv) (Or.inl rfl)
      simp [h] at hx
    | some x =>
      by_cases hpe : pyScalarEq x sv = true
      · simp only [hpe, if_true, ih]
        constructor
        · intro hall p hp
          rcases List.mem_cons.mp hp with hp | hp
          · subst hp
            exact ⟨x, h, hpe⟩
          · exact hall p hp
        · intro hall p hp
          exact hall p (List.mem_cons_of_mem _ hp)
      · simp only [hpe, if_false, Bool.false_eq_true, false_iff]
        intro hall
        obtain ⟨y, hy, hye⟩ := hall (sk, sv) (List.mem_cons_self _ _)
        rw [h] at hy
        cases hy
        exact hpe hye

theorem mem_insertRule {y r : Rule} :
    ∀ {l : List Rule}, y ∈ insertRule r l → y = r ∨ y ∈ l := by
  intro l
  induction l with
  | nil => simp [insertRule]
  | cons x xs ih =>
    simp only [insertRule]
    by_cases hle : r.priority ≤ x.priority
    · simp only [hle, if_true, List.mem_cons]
      tauto
    · simp only [hle, if_false, List.mem_cons]
      intro hy
      rcases hy with hy | hy
      · exact Or.inr (Or.inl hy)
      · rcases ih hy with hy | hy
        · exact Or.inl hy
        · exact Or.inr (Or.inr hy)

theorem pairwise_insertRule {r : Rule} :
    ∀ {l : List Rule}, l.Pairwise priLE → (insertRule r l).Pairwise priLE := by
  intro l
  induction l with
  | nil => simp [insertRule, priLE]
  | cons x xs ih =>
    intro hp
    rw [List.pairwise_cons] at hp
    simp only [insertRule]
    by_cases hle : r.priority ≤ x.priority
    · simp only [hle, if_true]
      rw [List.pairwise_cons]
      refine ⟨?_, List.pairwise_cons.mpr hp⟩
      intro y hy
      rcases List.mem_cons.mp hy with hy | hy
      · exact hy ▸ hle
      · exact le_trans hle (hp.1 y hy)
    · simp only [hle, if_false]
      rw [List.pairwise_cons]
      refine ⟨?_, ih hp.2⟩
      intro y hy
      rcases mem_insertRule hy with hy | hy
      · exact hy ▸ le_of_not_le hle
      · exact hp.1 y hy

theorem pairwise_sortRules (l : List Rule) : (sortRules l).Pairwise priLE := by
  induction l with
  | nil => simp [sortRules]
  | cons x xs ih => exact pairwise_insertRule ih

theorem insertRule_perm (r : Rule) :
    ∀ l : List Rule, List.Perm (insertRule r l) (r :: l) := by
  intro l
  induction l with
  | nil => simp [insertRule]
  | cons x xs ih =>
    simp only [insertRule]
    by_cases hle : r.priority ≤ x.priority
    · simp [hle]
    · simp only [hle, if_false]
      exact (ih.cons x).trans (List.Perm.swap r x xs)

theorem sortRules_perm : ∀ l : List Rule, List.Perm (sortRules l) l := by
  intro l
  induction l with
  | nil => simp [sortRules]
  | cons x xs ih => exact (insertRule_perm x (sortRules xs)).trans (ih.cons x)

theorem filter_insertRule (r : Rule) (p : Int) :
    ∀ l : List Rule,
      (insertRule r l).filter (fun x => x.priority == p) =
        if r.priority == p then r :: l.filter (fun x => x.priority == p)
        else l.filter (fun x => x.priority == p) := by
  intro l
  induction l with
  | nil =>
    simp only [insertRule]
    by_cases h : r.priority = p <;> simp [List.filter_cons, h]
  | cons x xs ih =>
    simp only [insertRule]
    by_cases hle : r.priority ≤ x.priority
    · simp only [hle, if_true]
      by_cases h : r.priority = p <;> simp [List.filter_cons, h]
    · simp only [hle, if_false]
      by_cases h : r.priority = p
      · have hxp : ¬ x.priority = p := by
          intro hx
          exact hle (le_of_eq (by rw [h, hx]))
        simp [List.filter_cons, hxp, ih, h]
      · simp [List.filter_cons, ih, h]

theorem filter_sortRules (p : Int) :
    ∀ l : List Rule,
      (sortRules l).filter (fun x => x.priority == p) =
        l.filter (fun x => x.priority == p) := by
  intro l
  induction l with
  | nil => rfl
  | cons x xs ih =>
    simp only [sortRules]
    rw [filter_insertRule, ih]
    by_cases h : x.priority = p <;> simp [List.filter_cons, h]

theorem filter_take_ex (q : Rule → Bool) :
    ∀ (l : List Rule) (k : Nat), ∃ n, (l.take k).filter q = (l.filter q).take n := by
  intro l
  induction l with
  | nil => intro k; exact ⟨0, by simp⟩
  | cons x xs ih =>
    intro k
    cases k with
    | zero => exact ⟨0, by simp⟩
    | succ k =>
      obtain ⟨n, hn⟩ := ih k
      by_cases h : q x = true
      · exact ⟨n + 1, by simp [List.filter_cons, h, hn]⟩
      · exact ⟨n, by simp [List.filter_cons, h, hn]⟩

theorem lookupKey_cons_ne {α : Type} (k key : String) (v : α)
    (rest : List (String × α)) (h : k ≠ key) :
    lookupKey ((k, v) :: rest) key = lookupKey rest key := by
  simp [lookupKey, h]

theorem getSuggestions_eq_take (S : State) (D : String) :
    getSuggestions S D = (sortRules (matchingRules S D)).take 3 := rfl

/-- C10: omitting the domain argument evaluates against the valorant catalog:
`get_suggestions(state)` equals `get_suggestions(state, 'valorant')`, the
default value of the `game` parameter in the source. -/
theorem c10_default_domain_is_valorant (S : State) :
    getSuggestions S = getSuggestions S "valorant" := rfl

/-- C7: no fault escapes `get_suggestions`: the per-rule handler turns any
fault into \x22rule does not match\x22, the top-level handler turns any fault of
the whole pass into the empty list, and over the engine's value domain the
body of `get_suggestions` always returns normally with the value
`get_suggestions` hands to the caller. -/
theorem c7_faults_contained :
    (∀ e : PyErr, handleRuleFault (Except.error e) = false) ∧
    (∀ e : PyErr, handlePassFault (Except.error e) = []) ∧
    ∀ (S : State) (D : String), getSuggestionsE S D = Except.ok (getSuggestions S D) :=
  ⟨fun _ => rfl, fun _ => rfl, fun _ _ => rfl⟩

/-- C8: a domain with no catalog entry yields the empty rule sequence, hence
`get_suggestions` returns the empty list rather than an error. -/
theorem c8_unknown_domain_empty (S : State) (D : String)
    (h : lookupKey SUGGESTIONS D = none) :
    rulesFor D = [] ∧ getSuggestions S D = [] := by
  have hr : rulesFor D = [] := by rw [rulesFor, h]; rfl
  refine ⟨hr, ?_⟩
  rw [getSuggestions_eq_take, matchingRules, hr]
  rfl

/-- C8 witness: the unknown domain \x22unknown_game\x22 on the empty state. -/
theorem c8_witness : rulesFor "unknown_game" = [] ∧ getSuggestions [] "unknown_game" = [] :=
  c8_unknown_domain_empty [] "unknown_game" (by decide)

/-- C6: a rule with empty conditions matches every state; `default_tip` is
the only valorant rule with empty conditions; and on the empty state the
valorant result is exactly that single catch-all rule. -/
theorem c6_empty_conditions_catch_all :
    (∀ S : State, checkConditions [] S = true) ∧
    (rulesFor "valorant").filter (fun r => r.conditions.isEmpty) = [defaultTipRule] ∧
    getSuggestions [] "valorant" = [defaultTipRule] :=
  ⟨fun _ => rfl, by decide, by decide⟩

/-- C1 counterexample: Python `==` coerces `bool` to `int`, so the state
`{"combat": 1}` DOES satisfy the condition `{"combat": True}`: the claimed
type-sensitive non-match is false on the code. -/
theorem c1_counterexample :
    checkConditions [("combat", Value.scalar (Scalar.b true))]
      [("combat", Value.scalar (Scalar.i 1))] = true ∧
    specScalarEq (Scalar.i 1) (Scalar.b true) = false := by decide

/-- C1 amended: scalar condition matching is exact equality in the host
language's sense: a matching rule forces each scalar-expected key to hold a
`==`-equal state value, where `==` identifies booleans with the integers 1
and 0 (so the number 1 satisfies the boolean `True`) but never equates a
string such as "True" with a boolean. -/
theorem c1_scalar_match_is_python_eq :
    (∀ (conds : List (String × Value)) (S : State) (k : String) (e : Scalar),
        (k, Value.scalar e) ∈ conds → checkConditions conds S = true →
        ∃ sv, lookupKey S k = some sv ∧ pyValueEq sv (Value.scalar e) = true) ∧
    pyScalarEq (Scalar.i 1) (Scalar.b true) = true ∧
    pyScalarEq (Scalar.s "True") (Scalar.b true) = false := by
  refine ⟨?_, by decide, by decide⟩
  intro conds S k e hmem hmatch
  rw [checkConditions_eq_all] at hmatch
  have h := List.all_eq_true.mp hmatch _ hmem
  simp only [condHolds] at h
  cases hl : lookupKey S k with
  | none => rw [hl] at h; simp at h
  | some sv =>
    rw [hl] at h
    refine ⟨sv, rfl, ?_⟩
    cases sv with
    | scalar c => exact h
    | nested m => exact h

/-- C1 witness: the amended necessity statement applied to the concrete rule
`{"combat": True}` and state `{"combat": 1}`. -/
theorem c1_witness :
    ∃ sv, lookupKey [("combat", Value.scalar (Scalar.i 1))] "combat" = some sv ∧
      pyValueEq sv (Value.scalar (Scalar.b true)) = true :=
  c1_scalar_match_is_python_eq.1
    [("combat", Value.scalar (Scalar.b true))]
    [("combat", Value.scalar (Scalar.i 1))]
    "combat" (Scalar.b true) (by decide) (by decide)

/-- C4: a condition key absent from the state prevents the rule from
matching, regardless of the other conditions. -/
theorem c4_absent_key_no_match
    (conds : List (String × Value)) (S : State) (k : String) (v : Value)
    (hmem : (k, v) ∈ conds) (habs : lookupKey S k = none) :
    checkConditions conds S = false := by
  rw [checkConditions_eq_all]
  refine List.all_eq_false.mpr ⟨(k, v), hmem, ?_⟩
  simp [condHolds, habs]

/-- C4 witness: a rule demanding `exposed` and `combat` on a state that
satisfies `exposed` but lacks `combat`. -/
theorem c4_witness :
    checkConditions
      [("exposed", Value.scalar (Scalar.b true)), ("combat", Value.scalar (Scalar.b true))]
      [("exposed", Value.scalar (Scalar.b true))] = false :=
  c4_absent_key_no_match
    [("exposed", Value.scalar (Scalar.b true)), ("combat", Value.scalar (Scalar.b true))]
    [("exposed", Value.scalar (Scalar.b true))]
    "combat" (Value.scalar (Scalar.b true)) (by decide) (by decide)

/-- C5 counterexample: with the spec's type-sensitive reading of "exactly
equal", nested matching also coerces in the code: state
`{"abilities": {"Q": 1}}` satisfies `{"abilities": {"Q": True}}` although
`1` and `True` are not equal by value and type. -/
theorem c5_counterexample :
    checkConditions [("abilities", Value.nested [("Q", Scalar.b true)])]
      [("abilities", Value.nested [("Q", Scalar.i 1)])] = true ∧
    specScalarEq (Scalar.i 1) (Scalar.b true) = false := by decide

/-- C5 amended: when the expectation for a key is a nested mapping and the
state holds a nested mapping there, the rule matches on that key iff every
listed sub-key is present with a `==`-equal value in the host language's
sense (booleans coerce to 0/1; unlisted state sub-keys are ignored); when
the state value is a scalar the rule does not match; the spec's two
abilities examples behave as stated. -/
theorem c5_nested_matching :
    (∀ (k : String) (exp stv : List (String × Scalar)) (S : State),
        lookupKey S k = some (Value.nested stv) →
        (checkConditions [(k, Value.nested exp)] S = true ↔
          ∀ p ∈ exp, ∃ x, lookupKey stv p.1 = some x ∧ pyScalarEq x p.2 = true)) ∧
    (∀ (k : String) (exp : List (String × Scalar)) (c : Scalar) (S : State),
        lookupKey S k = some (Value.scalar c) →
        checkConditions [(k, Value.nested exp)] S = false) ∧
    checkConditions [("abilities", Value.nested [("Q", Scalar.b true)])]
      [("abilities", Value.nested [("Q", Scalar.b false), ("E", Scalar.b true)])] = false ∧
    checkConditions [("abilities", Value.nested [("Q", Scalar.b true)])]
      [("abilities", Value.nested [("Q", Scalar.b true), ("E", Scalar.b false)])] = true := by
  refine ⟨?_, ?_, by decide, by decide⟩
  · intro k exp stv S hl
    rw [checkConditions_cons, checkConditions_nil, Bool.and_true]
    simp only [condHolds, hl]
    exact checkSub_eq_true_iff exp stv
  · intro k exp c S hl
    rw [checkConditions_cons, checkConditions_nil, Bool.and_true]
    simp only [condHolds, hl]
    rfl

/-- C5 witness: the iff applied to `{"abilities": {"Q": True}}` against the
state `{"abilities": {"Q": True, "E": False}}`. -/
theorem c5_witness :
    checkConditions [("abilities", Value.nested [("Q", Scalar.b true)])]
      [("abilities", Value.nested [("Q", Scalar.b true), ("E", Scalar.b false)])] = true :=
  (c5_nested_matching.1 "abilities" [("Q", Scalar.b true)]
      [("Q", Scalar.b true), ("E", Scalar.b false)]
      [("abilities", Value.nested [("Q", Scalar.b true), ("E", Scalar.b false)])]
      (by decide)).mpr (by decide)

theorem checkConditions_fresh_key (k : String) (v : Value) (S : State) :
    ∀ conds : List (String × Value), (∀ p ∈ conds, p.1 ≠ k) →
      checkConditions conds ((k, v) :: S) = checkConditions conds S := by
  intro conds
  induction conds with
  | nil => intro _; rfl
  | cons p rest ih =>
    intro h
    rw [checkConditions_eq_all, checkConditions_eq_all, List.all_cons, List.all_cons]
    have hrest := ih fun q hq => h q (List.mem_cons_of_mem _ hq)
    rw [checkConditions_eq_all, checkConditions_eq_all] at hrest
    rw [hrest]
    have hk : k ≠ p.1 := fun he => h p (List.mem_cons_self _ _) he.symm
    have hcond : condHolds ((k, v) :: S) p.1 p.2 = condHolds S p.1 p.2 := by
      simp only [condHolds, lookupKey_cons_ne k p.1 v S hk]
    rw [hcond]

/-- C9: adding a field whose key is not named by a rule's conditions never
changes that rule's match outcome. -/
theorem c9_unreferenced_fields_irrelevant
    (r : Rule) (S : State) (k : String) (v : Value)
    (h : ∀ p ∈ r.conditions, p.1 ≠ k) :
    checkConditions r.conditions ((k, v) :: S) = checkConditions r.conditions S :=
  checkConditions_fresh_key k v S r.conditions h

/-- C9 witness: the exposed-warning rule's outcome is unchanged when an
unrelated `combat` field is added to the state. -/
theorem c9_witness :
    checkConditions [("exposed", Value.scalar (Scalar.b true))]
      (("combat", Value.scalar (Scalar.b true)) ::
        [("exposed", Value.scalar (Scalar.b true))]) =
    checkConditions [("exposed", Value.scalar (Scalar.b true))]
      [("exposed", Value.scalar (Scalar.b true))] :=
  c9_unreferenced_fields_irrelevant
    { id := "exposed_warning",
      text := "You are exposed! Find cover quickly",
      priority := 2,
      conditions := [("exposed", Value.scalar (Scalar.b true))] }
    [("exposed", Value.scalar (Scalar.b true))]
    "combat" (Value.scalar (Scalar.b true)) (by decide)

/-- C2: the returned sequence is sorted by ascending priority, and stably
so: for each priority value, the returned rules of that priority are an
initial run of the matching rules of that priority in catalog order (a
suffix may only be lost to the top-3 truncation). -/
theorem c2_sorted_and_stable (S : State) (D : String) :
    (getSuggestions S D).Pairwise priLE ∧
    ∀ p : Int, ∃ n : Nat,
      (getSuggestions S D).filter (fun r => r.priority == p) =
        ((matchingRules S D).filter (fun r => r.priority == p)).take n := by
  constructor
  · rw [getSuggestions_eq_take]
    exact List.Pairwise.sublist (List.take_sublist 3 _)
      (pairwise_sortRules (matchingRules S D))
  · intro p
    obtain ⟨n, hn⟩ := filter_take_ex (fun r => r.priority == p)
      (sortRules (matchingRules S D)) 3
    refine ⟨n, ?_⟩
    rw [getSuggestions_eq_take, hn, filter_sortRules]

/-- C3: at most three suggestions are returned, and when fewer than three
rules match the result is exactly the sorted matches, a permutation of all
the matching rules with nothing added. -/
theorem c3_top_three (S : State) (D : String) :
    (getSuggestions S D).length ≤ 3 ∧
    ((matchingRules S D).length < 3 →
      getSuggestions S D = sortRules (matchingRules S D) ∧
      List.Perm (getSuggestions S D) (matchingRules S D)) := by
  constructor
  · rw [getSuggestions_eq_take]
    exact List.length_take_le 3 _
  · intro h
    have hlen : (sortRules (matchingRules S D)).length = (matchingRules S D).length :=
      (sortRules_perm (matchingRules S D)).length_eq
    have hle : (sortRules (matchingRules S D)).length ≤ 3 := by omega
    rw [getSuggestions_eq_take, List.take_of_length_le hle]
    exact ⟨rfl, sortRules_perm (matchingRules S D)⟩

/-- C3 witness: on the empty state only the catch-all valorant rule matches,
so fewer than three rules match and the result is a permutation of all the
matches. -/
theorem c3_witness :
    List.Perm (getSuggestions [] "valorant") (matchingRules [] "valorant") :=
  ((c3_top_three [] "valorant").2 (by decide)).2
